import Mathlib

/-!
# Verification of the Fulloch inference-orchestration core

Shallow embedding of the parts of the Fulloch repository that the spec's
claims are about: the intent-resolution pipeline and chat entry point of
`core/api_service.py`, the bearer-token auth dependency and route table of
`api/server.py`, the TTS voice-fallback logic of
`FullochService.synthesize_speech`, the lazy backend loaders
(`_ensure_asr` / `_ensure_slm`), and the audio normalization / resampling
helpers (`_ensure_float32_mono` / `_prepare_audio`).

External collaborators (the neural backends, `utils.intents.handle_intent`,
`utils.intent_catch.catchAll`, `json.loads`) enter the model as explicit
parameters: the embedding is about the orchestration code, which treats them
as opaque fallible calls.  Python strings are modelled as Lean `String`s with
the Python primitives (`strip`, `replace`, `lower`, substring test)
re-implemented structurally so that every definition evaluates by kernel
reduction.  Sample values are modelled as rationals: the claims under test
are about shapes, lengths and amplitude bounds, which the exact-arithmetic
model shares with the float implementation.
-/

namespace Fulloch

/-! ## Python string primitives -/

/-- Python `str.replace(old_char, "")`: removing every occurrence of a single
character (the only use sites replace one character by the empty string). -/
def removeChar (c : Char) (s : String) : String :=
  ⟨s.data.filter (fun d => d ≠ c)⟩

/-- Drop the characters satisfying `p` at both ends of a list. -/
def dropEnds (p : Char → Bool) (l : List Char) : List Char :=
  ((l.dropWhile p).reverse.dropWhile p).reverse

/-- Python `str.strip()`: remove leading and trailing whitespace. -/
def pyStrip (s : String) : String :=
  ⟨dropEnds Char.isWhitespace s.data⟩

/-- Python `str.strip(c)` for a single character: remove every leading and
trailing occurrence of `c`. -/
def pyStripChar (c : Char) (s : String) : String :=
  ⟨dropEnds (fun d => d = c) s.data⟩

/-- Python `str.lower()` restricted to the ASCII range used here. -/
def pyLower (s : String) : String :=
  ⟨s.data.map Char.toLower⟩

/-- Does `pat` occur at the start of `l`? -/
def charsStartWith : List Char → List Char → Bool
  | [], _ => true
  | _ :: _, [] => false
  | a :: as, b :: bs => a = b && charsStartWith as bs

/-- Does `pat` occur anywhere in `l`? -/
def charsHaveSub (pat : List Char) : List Char → Bool
  | [] => pat.isEmpty
  | c :: cs => charsStartWith pat (c :: cs) || charsHaveSub pat cs

/-- Python `pat in s` substring test. -/
def pyContains (s pat : String) : Bool :=
  charsHaveSub pat.data s.data

/-! ## Intent pipeline (`FullochService._run_intent_pipeline` / `chat`)

`catchAll` (utils/intent_catch.py) either returns a structured intent dict or
passes the original string through; `handle_intent` (utils/intents.py) is the
tool dispatcher, returning a string answer or a non-string ("unresolved")
value; `json.loads` either parses or raises `JSONDecodeError`, which the
pipeline catches.  All three are collaborators outside the orchestration
core and enter the model as parameters of `PipelineEnv`, together with the
raw text each `generate_slm` call would produce for this request. -/

/-- Result of `catchAll(user_prompt)`: a structured intent payload (a dict in
the source) or the original prompt passed through unchanged. -/
inductive CatchResult (α : Type) where
  | intent (payload : α)
  | passthrough (original : String)

/-- Everything `_run_intent_pipeline` and `chat` consult while resolving one
request whose latest user message is non-empty. -/
structure PipelineEnv (α : Type) where
  /-- `self.use_ai` -/
  useAi : Bool
  /-- result of `catchAll(user_prompt)` -/
  catchAllRes : CatchResult α
  /-- `intents.handle_intent`; `none` models a non-string return value -/
  handleIntent : α → Option String
  /-- raw text of the grammar-constrained `generate_slm` call -/
  slmIntentOut : String
  /-- `json.loads`; `none` models a raised `JSONDecodeError` -/
  parseJson : String → Option α
  /-- raw text of the conversational `generate_slm` call -/
  slmChatOut : String
  /-- `self._remove_emoji` when a TTS backend has installed it -/
  removeEmoji : Option (String → Bool → String)

/-- The literal fallback marker tested by `_run_intent_pipeline`
(produced by `tools/search_web.py::external_information`). -/
def intentMarker : String := "User question:"

/-- `FullochService._clean_text(text, remove_think)`. -/
def cleanText (remEmoji : Option (String → Bool → String))
    (text : Option String) (removeThink : Bool) : String :=
  match text with
  | none => ""
  | some t =>
    let value := pyStrip (removeChar '*' (removeChar '"' t))
    if value = "" then ""
    else
      match remEmoji with
      | some f => pyStrip (f value removeThink)
      | none => value

/-- The model-backed stage of `_run_intent_pipeline` (everything after the
pattern-matcher branch).  Returns the optional resolved answer together with
the number of `generate_slm` invocations this stage performed. -/
def modelRoute {α : Type} (env : PipelineEnv α) : Option String × Nat :=
  if !env.useAi then (none, 0)
  else
    let payload := pyStripChar '"' (pyStrip env.slmIntentOut)
    if payload = "" then (none, 1)
    else
      match env.parseJson payload with
      | none => (none, 1)
      | some parsed =>
        match env.handleIntent parsed with
        | none => (none, 1)
        | some answer =>
          if pyStrip answer = "" then (none, 1)
          else if pyContains answer intentMarker then (none, 1)
          else (some answer, 1)

/-- `FullochService._run_intent_pipeline(user_prompt)`: pattern-matcher branch
first, then the model-backed stage.  Second component counts `generate_slm`
invocations. -/
def runIntentPipeline {α : Type} (env : PipelineEnv α) : Option String × Nat :=
  match env.catchAllRes with
  | .intent p =>
    match env.handleIntent p with
    | some answer =>
      if pyStrip answer ≠ "" then (some answer, 0) else modelRoute env
    | none => modelRoute env
  | .passthrough _ => modelRoute env

/-- The conversational fallback tail of `FullochService.chat` (after the
intent pipeline produced no answer).  `n` is the number of `generate_slm`
calls made so far. -/
def chatFallback {α : Type} (env : PipelineEnv α) (n : Nat) : String × Nat :=
  if !env.useAi then
    ("I can handle direct commands, but conversational chat is disabled in configuration.", n)
  else
    let cleaned := cleanText env.removeEmoji (some env.slmChatOut) true
    if cleaned ≠ "" then (cleaned, n + 1)
    else ("I couldn\u0027t generate a response for that request.", n + 1)

/-- `FullochService.chat` from the point where the latest user message is
known to be non-empty: intent pipeline, then conversational fallback.
Returns the answer text and the total number of `generate_slm` invocations
made while resolving the request. -/
def chat {α : Type} (env : PipelineEnv α) : String × Nat :=
  let r := runIntentPipeline env
  match r.1 with
  | some a => if a = "" then chatFallback env r.2 else (cleanText env.removeEmoji (some a) true, r.2)
  | none => chatFallback env r.2

/-- The pattern-matcher branch resolved the request: `catchAll` returned a
dict and the dispatcher returned a string with non-blank content. -/
def patternResolved {α : Type} (env : PipelineEnv α) : Prop :=
  ∃ p a, env.catchAllRes = CatchResult.intent p ∧
    env.handleIntent p = some a ∧ pyStrip a ≠ ""

/-! ## HTTP auth (`api/server.py`) -/

/-- Parsed `Authorization` header as FastAPI's `HTTPBearer(auto_error=False)`
hands it to the dependency. -/
structure BearerCreds where
  scheme : String
  credentials : String

/-- `require_api_key`: `some 401` when the dependency raises
`HTTPException(401)`, `none` when the request proceeds. -/
def requireApiKey (configuredKey : String) (creds : Option BearerCreds) : Option Nat :=
  if configuredKey = "" then none
  else
    match creds with
    | none => some 401
    | some c =>
      if pyLower c.scheme ≠ "bearer" then some 401
      else if c.credentials ≠ configuredKey then some 401
      else none

/-- The seven routes of the OpenAI-compatible surface. -/
inductive Endpoint where
  | health
  | listModels
  | chatCompletions
  | responsesApi
  | transcriptions
  | translations
  | speech
deriving DecidableEq

/-- Whether the route's decorator declares
`dependencies=[Depends(require_api_key)]` (read off `api/server.py`):
every route except `GET /health` does. -/
def hasAuthDependency : Endpoint → Bool
  | .health => false
  | _ => true

/-- Auth outcome for a request hitting an endpoint: `some 401` when the auth
dependency rejects it, `none` when it reaches the handler. -/
def routeAuth (configuredKey : String) (ep : Endpoint)
    (creds : Option BearerCreds) : Option Nat :=
  if hasAuthDependency ep then requireApiKey configuredKey creds else none

/-- The supplied credentials would not pass `require_api_key` for this key:
missing, wrong scheme, or wrong token. -/
def invalidCreds (configuredKey : String) (creds : Option BearerCreds) : Prop :=
  match creds with
  | none => True
  | some c => pyLower c.scheme ≠ "bearer" ∨ c.credentials ≠ configuredKey

/-! ## Helper lemmas -/

/-- Stripping the empty string yields the empty string. -/
lemma pyStrip_empty : pyStrip "" = "" := rfl

/-- A string with non-blank content is itself non-empty. -/
lemma ne_empty_of_pyStrip_ne_empty {a : String} (h : pyStrip a ≠ "") : a ≠ "" := by
  intro ha
  exact h (ha ▸ pyStrip_empty)

/-- When the pattern-matcher branch does not resolve the request, the pipeline
is exactly its model-backed stage. -/
lemma runIntentPipeline_eq_modelRoute {α : Type} (env : PipelineEnv α)
    (hnp : ¬ patternResolved env) : runIntentPipeline env = modelRoute env := by
  unfold runIntentPipeline
  cases hc : env.catchAllRes with
  | passthrough s => rfl
  | intent p =>
    cases hh : env.handleIntent p with
    | none => simp only [hh]
    | some a =>
      have hs : ¬ pyStrip a ≠ "" := fun h => hnp ⟨p, a, hc, hh, h⟩
      simp only [hh, hs, if_false, if_neg]

/-! ## Claim C1: pattern-matcher hit and the model-backed path -/

/-- Concrete environment in which `catchAll` returns a structured intent but
the tool dispatcher answers with an empty string. -/
def envCatchHitEmptyTool : PipelineEnv Unit where
  useAi := true
  catchAllRes := CatchResult.intent ()
  handleIntent := fun _ => some ""
  slmIntentOut := ""
  parseJson := fun _ => none
  slmChatOut := "hello there"
  removeEmoji := none

/-- Claim C1 as stated is false: in `envCatchHitEmptyTool` the pattern matcher
returns a structured intent, yet resolving the request invokes `generate_slm`
twice (once on the grammar-constrained intent route, once in the
conversational fallback), because the dispatcher produced empty text and
`_run_intent_pipeline` then falls through to the model-backed stage. -/
theorem c1_counterexample :
    envCatchHitEmptyTool.catchAllRes = CatchResult.intent () ∧
      (chat envCatchHitEmptyTool).2 = 2 := by
  exact ⟨rfl, rfl⟩

/-- Claim C1 (amended): if `catchAll` returns a structured intent AND the tool
dispatcher returns a string with non-blank content, then `generate_slm` is
invoked zero times while resolving the request — both inside
`_run_intent_pipeline` and across the whole of `chat`. -/
theorem c1_pattern_hit_no_slm {α : Type} (env : PipelineEnv α) (p : α) (a : String)
    (hc : env.catchAllRes = CatchResult.intent p)
    (hh : env.handleIntent p = some a) (ha : pyStrip a ≠ "") :
    (runIntentPipeline env).2 = 0 ∧ (chat env).2 = 0 := by
  have hrun : runIntentPipeline env = (some a, 0) := by
    unfold runIntentPipeline
    rw [hc]
    simp only [hh]
    rw [if_pos ha]
  refine ⟨by rw [hrun], ?_⟩
  unfold chat
  rw [hrun]
  simp [ne_empty_of_pyStrip_ne_empty ha]

/-- Witness for C1: a concrete environment where the pattern matcher hits and
the dispatcher answers non-blank text, so no model invocation happens. -/
theorem c1_witness :
    (runIntentPipeline
        ({ useAi := true
           catchAllRes := CatchResult.intent ()
           handleIntent := fun _ => some "Playing jazz now."
           slmIntentOut := ""
           parseJson := fun _ => none
           slmChatOut := ""
           removeEmoji := none } : PipelineEnv Unit)).2 = 0 ∧
    (chat
        ({ useAi := true
           catchAllRes := CatchResult.intent ()
           handleIntent := fun _ => some "Playing jazz now."
           slmIntentOut := ""
           parseJson := fun _ => none
           slmChatOut := ""
           removeEmoji := none } : PipelineEnv Unit)).2 = 0 :=
  c1_pattern_hit_no_slm _ () "Playing jazz now." rfl rfl (by decide)

/-! ## Claim C2: bearer auth across the HTTP surface -/

/-- Claim C2 as stated is false at `GET /health`: with the key `secret-key`
configured and no bearer token supplied, the auth dependency itself would
reject with 401, but the `/health` route does not declare it, so the request
is served. -/
theorem c2_counterexample :
    requireApiKey "secret-key" none = some 401 ∧
      routeAuth "secret-key" Endpoint.health none = none := by
  exact ⟨rfl, rfl⟩

/-- Claim C2 (amended): when an API key is configured, every endpoint other
than `GET /health` rejects a request with absent or invalid bearer
credentials as 401; `GET /health` is always served without authentication;
and when no key is configured, no request is rejected for authentication. -/
theorem c2_auth_uniform_except_health (key : String) (ep : Endpoint)
    (creds : Option BearerCreds) :
    (key ≠ "" → ep ≠ Endpoint.health → invalidCreds key creds →
      routeAuth key ep creds = some 401) ∧
    routeAuth key Endpoint.health creds = none ∧
    (key = "" → routeAuth key ep creds = none) := by
  refine ⟨?_, rfl, ?_⟩
  · intro hk hep hinv
    have hdep : hasAuthDependency ep = true := by
      cases ep <;> first | rfl | exact absurd rfl hep
    unfold routeAuth
    rw [hdep]
    simp only [if_pos]
    unfold requireApiKey
    rw [if_neg hk]
    cases creds with
    | none => rfl
    | some c =>
      show (if pyLower c.scheme ≠ "bearer" then some 401
            else if c.credentials ≠ key then some 401 else none) = some 401
      unfold invalidCreds at hinv
      rcases hinv with h | h
      · rw [if_pos h]
      · by_cases hs : pyLower c.scheme ≠ "bearer"
        · rw [if_pos hs]
        · rw [if_neg hs, if_pos h]
  · intro hk
    unfold routeAuth requireApiKey
    rw [if_pos hk]
    cases hasAuthDependency ep <;> rfl

/-- Witness for C2 (amended): with key `k`, the speech endpoint rejects a
token-less request with 401 while `/health` is served, and with no key
configured nothing is rejected. -/
theorem c2_witness :
    routeAuth "k" Endpoint.speech none = some 401 ∧
    routeAuth "k" Endpoint.health none = none ∧
    routeAuth "" Endpoint.speech none = none :=
  ⟨(c2_auth_uniform_except_health "k" Endpoint.speech none).1 (by decide)
      (by decide) trivial,
   (c2_auth_uniform_except_health "k" Endpoint.speech none).2.1,
   (c2_auth_uniform_except_health "" Endpoint.speech none).2.2 rfl⟩

/-! ## Claim C3: fallback-marker suppression -/

/-- Concrete environment in which the pattern matcher hits and the dispatcher
returns text containing the fallback marker. -/
def envMarkerThroughPattern : PipelineEnv Unit where
  useAi := false
  catchAllRes := CatchResult.intent ()
  handleIntent := fun _ => some "User question: what is the weather"
  slmIntentOut := ""
  parseJson := fun _ => none
  slmChatOut := ""
  removeEmoji := none

/-- Claim C3 as stated is false: when the structured intent comes from the
pattern matcher, `_run_intent_pipeline` returns the dispatcher's text
verbatim even though it contains the fallback marker `User question:`. -/
theorem c3_counterexample :
    pyContains "User question: what is the weather" intentMarker = true ∧
      (runIntentPipeline envMarkerThroughPattern).1 =
        some "User question: what is the weather" := by
  exact ⟨by decide, rfl⟩

/-- Claim C3 (amended): the fallback-marker check applies to intents parsed
from constrained-model output: on the model-backed route, a dispatcher answer
containing `User question:` makes the pipeline return no answer (unresolved)
instead of that text. -/
theorem c3_marker_suppressed_on_model_route {α : Type} (env : PipelineEnv α)
    (parsed : α) (answer : String)
    (hnp : ¬ patternResolved env)
    (hparse : env.parseJson (pyStripChar '"' (pyStrip env.slmIntentOut)) = some parsed)
    (hh : env.handleIntent parsed = some answer)
    (hm : pyContains answer intentMarker = true) :
    (runIntentPipeline env).1 = none := by
  rw [runIntentPipeline_eq_modelRoute env hnp]
  unfold modelRoute
  cases hai : env.useAi with
  | false => rfl
  | true =>
    simp only [Bool.not_true, if_false, Bool.false_eq_true]
    by_cases hp : pyStripChar '"' (pyStrip env.slmIntentOut) = ""
    · rw [if_pos hp]
    · rw [if_neg hp, hparse]
      simp only [hh, hm]
      by_cases hs : pyStrip answer = ""
      · rw [if_pos hs]
      · rw [if_neg hs]
        simp

/-- Witness for C3: concrete model-route resolution whose dispatcher answer
contains the marker is suppressed. -/
theorem c3_witness :
    (runIntentPipeline
        ({ useAi := true
           catchAllRes := CatchResult.passthrough "what is in the news"
           handleIntent := fun _ => some "Today is a day. User question: news"
           slmIntentOut := "{}"
           parseJson := fun _ => some ()
           slmChatOut := ""
           removeEmoji := none } : PipelineEnv Unit)).1 = none :=
  c3_marker_suppressed_on_model_route _ () "Today is a day. User question: news"
    (by rintro ⟨p, a, h, -, -⟩; exact absurd h (by simp [envMarkerThroughPattern]))
    rfl rfl (by decide)

/-! ## Claim C9: malformed constrained-model JSON -/

/-- Claim C9: when the request reaches the model-backed intent stage and the
stripped raw output fails to parse as JSON, the pipeline returns the
no-intent outcome (with the single intent-stage `generate_slm` call) and
`chat` falls through to the conversational fallback; the embedding is total,
matching the source which catches `JSONDecodeError`. -/
theorem c9_parse_failure_falls_through {α : Type} (env : PipelineEnv α)
    (hnp : ¬ patternResolved env) (hai : env.useAi = true)
    (hparse : env.parseJson (pyStripChar '"' (pyStrip env.slmIntentOut)) = none) :
    runIntentPipeline env = (none, 1) ∧ chat env = chatFallback env 1 := by
  have hrun : runIntentPipeline env = (none, 1) := by
    rw [runIntentPipeline_eq_modelRoute env hnp]
    unfold modelRoute
    rw [hai]
    simp only [Bool.not_true, if_false, Bool.false_eq_true]
    by_cases hp : pyStripChar '"' (pyStrip env.slmIntentOut) = ""
    · rw [if_pos hp]
    · rw [if_neg hp, hparse]
  refine ⟨hrun, ?_⟩
  unfold chat
  rw [hrun]

/-- Witness for C9: a concrete request whose constrained-model output is not
JSON resolves to no intent and hands control to the conversational
fallback. -/
theorem c9_witness :
    runIntentPipeline
        ({ useAi := true
           catchAllRes := CatchResult.passthrough "tell me a joke"
           handleIntent := fun _ => some ""
           slmIntentOut := "not json at all"
           parseJson := fun _ => none
           slmChatOut := "Here is a joke."
           removeEmoji := none } : PipelineEnv Unit) = (none, 1) ∧
    chat
        ({ useAi := true
           catchAllRes := CatchResult.passthrough "tell me a joke"
           handleIntent := fun _ => some ""
           slmIntentOut := "not json at all"
           parseJson := fun _ => none
           slmChatOut := "Here is a joke."
           removeEmoji := none } : PipelineEnv Unit) =
      chatFallback
        ({ useAi := true
           catchAllRes := CatchResult.passthrough "tell me a joke"
           handleIntent := fun _ => some ""
           slmIntentOut := "not json at all"
           parseJson := fun _ => none
           slmChatOut := "Here is a joke."
           removeEmoji := none } : PipelineEnv Unit) 1 :=
  c9_parse_failure_falls_through _
    (by rintro ⟨p, a, h, -, -⟩; cases h) rfl rfl

/-! ## Audio helpers (`_ensure_float32_mono` / `_prepare_audio`)

Waveforms are numpy arrays of up to three dimensions; sample values are
modelled as rationals (the claims are about shapes, lengths and amplitude
bounds, unaffected by float32 representation).  The float32 cast of the
source is a representation change with no counterpart in the exact model. -/

/-- A numpy array of dimension 1, 2 or 3. -/
inductive NpArr where
  | d1 (xs : List ℚ)
  | d2 (xs : List (List ℚ))
  | d3 (xs : List (List (List ℚ)))

/-- `arr.ndim`. -/
def NpArr.ndim : NpArr → Nat
  | .d1 _ => 1
  | .d2 _ => 2
  | .d3 _ => 3

/-- Arithmetic mean of a list (numpy mean along a full axis). -/
def listMean (l : List ℚ) : ℚ := l.sum / l.length

/-- `np.mean(arr, axis=1)`: drops the second axis, averaging over it.
It is only reached for `ndim > 1`; the 1-D case is never taken. -/
def NpArr.meanAxis1 : NpArr → NpArr
  | .d1 xs => .d1 xs
  | .d2 xs => .d1 (xs.map listMean)
  | .d3 xs => .d2 (xs.map (fun block => block.transpose.map listMean))

/-- All scalar entries of the array in row-major order. -/
def NpArr.elems : NpArr → List ℚ
  | .d1 xs => xs
  | .d2 xs => xs.flatten
  | .d3 xs => (xs.map List.flatten).flatten

/-- `arr.size`: total number of scalar entries. -/
def NpArr.size (a : NpArr) : Nat := a.elems.length

/-- Elementwise division `arr / k`. -/
def NpArr.divBy : NpArr → ℚ → NpArr
  | .d1 xs, k => .d1 (xs.map (fun x => x / k))
  | .d2 xs, k => .d2 (xs.map (fun row => row.map (fun x => x / k)))
  | .d3 xs, k => .d3 (xs.map (fun block => block.map (fun row => row.map (fun x => x / k))))

/-- `float(np.max(np.abs(arr))) if arr.size else 0.0`.  Folding `max` over
the absolute values with base `0` equals the numpy maximum on non-empty
arrays (absolute values are non-negative) and is `0.0` on empty ones,
matching the source's explicit guard. -/
def maxAbs (a : NpArr) : ℚ := (a.elems.map (fun x => |x|)).foldr max 0

/-- The first half of `_ensure_float32_mono`: one channel-averaging pass when
`ndim > 1`, then the float32 cast (identity in the exact model). -/
def monoPass (a : NpArr) : NpArr :=
  if a.ndim > 1 then a.meanAxis1 else a

/-- `_ensure_float32_mono(audio)` (core/api_service.py): channel averaging and
cast (`monoPass`), then peak division when the peak exceeds `1.0`. -/
def ensureFloat32Mono (a : NpArr) : NpArr :=
  if maxAbs (monoPass a) > 1 then (monoPass a).divBy (maxAbs (monoPass a))
  else monoPass a

/-- Python `round()` on an exact rational: round half to even. -/
def roundHalfEven (q : ℚ) : ℤ :=
  if q - ⌊q⌋ < 1 / 2 then ⌊q⌋
  else if 1 / 2 < q - ⌊q⌋ then ⌊q⌋ + 1
  else if ⌊q⌋ % 2 = 0 then ⌊q⌋ else ⌊q⌋ + 1

/-- `np.linspace(0.0, stop, num=n, endpoint=False)`. -/
def linspace (stop : ℚ) (n : Nat) : List ℚ :=
  (List.range n).map (fun (i : ℕ) => stop * (i : ℚ) / (n : ℚ))

/-- One point of `np.interp`: walk the sorted `(x, y)` table, clamping at both
ends and interpolating linearly between bracketing nodes. -/
def interpPoint (x : ℚ) : List (ℚ × ℚ) → ℚ
  | [] => 0
  | [(_, y0)] => y0
  | (x0, y0) :: (x1, y1) :: rest =>
    if x ≤ x0 then y0
    else if x ≤ x1 then y0 + (y1 - y0) * (x - x0) / (x1 - x0)
    else interpPoint x ((x1, y1) :: rest)

/-- `duration = mono.size / float(sample_rate)` for a mono buffer of `n`
samples. -/
def bufDuration (n : Nat) (sampleRate : ℤ) : ℚ :=
  (n : ℚ) / (sampleRate : ℚ)

/-- `target_size = max(1, int(round(duration * target_sample_rate)))`. -/
def resampleTargetSize (n : Nat) (sampleRate targetRate : ℤ) : Nat :=
  (max 1 (roundHalfEven (bufDuration n sampleRate * (targetRate : ℚ)))).toNat

/-- The resampling tail of `_prepare_audio`: linear interpolation of the mono
samples at evenly spaced output timestamps. -/
def resample1d (xs : List ℚ) (sampleRate targetRate : ℤ) : List ℚ :=
  (linspace (bufDuration xs.length sampleRate)
      (resampleTargetSize xs.length sampleRate targetRate)).map
    (fun x => interpPoint x ((linspace (bufDuration xs.length sampleRate) xs.length).zip xs))

/-- `_prepare_audio(audio, sample_rate, target_sample_rate)`: mono/float32
normalization, then linear-interpolation resampling unless the rates already
agree or the buffer is empty. -/
def prepareAudio (a : NpArr) (sampleRate targetRate : ℤ) : NpArr :=
  if sampleRate = targetRate ∨ (ensureFloat32Mono a).size = 0 then
    ensureFloat32Mono a
  else
    NpArr.d1 (resample1d (ensureFloat32Mono a).elems sampleRate targetRate)

/-! ## Lemmas about the audio helpers -/

/-- Every member of a list is bounded by a `max`-fold over it. -/
lemma mem_le_foldr_max {l : List ℚ} {x c : ℚ} (h : x ∈ l) : x ≤ l.foldr max c := by
  induction l with
  | nil => cases h
  | cons a t ih =>
    rcases List.mem_cons.mp h with rfl | h
    · exact le_max_left _ _
    · exact le_trans (ih h) (le_max_right _ _)

/-- A `max`-fold over a bounded list is bounded. -/
lemma foldr_max_le {l : List ℚ} {b c : ℚ} (hc : c ≤ b) (h : ∀ x ∈ l, x ≤ b) :
    l.foldr max c ≤ b := by
  induction l with
  | nil => exact hc
  | cons a t ih =>
    exact max_le (h a (by simp)) (ih (fun x hx => h x (by simp [hx])))

/-- Mapping under `flatten`. -/
lemma flatten_map_map {α β : Type} (f : α → β) (L : List (List α)) :
    (L.map (fun l => l.map f)).flatten = L.flatten.map f := by
  induction L with
  | nil => rfl
  | cons a t ih =>
    simp only [List.map_cons, List.flatten_cons, List.map_append, ih]

/-- Entries of an elementwise division. -/
lemma elems_divBy (a : NpArr) (k : ℚ) :
    (a.divBy k).elems = a.elems.map (fun x => x / k) := by
  cases a with
  | d1 xs => rfl
  | d2 xs =>
    simp only [NpArr.divBy, NpArr.elems]
    exact flatten_map_map (fun x => x / k) xs
  | d3 xs =>
    simp only [NpArr.divBy, NpArr.elems, List.map_map]
    rw [← flatten_map_map (fun x => x / k) (xs.map List.flatten), List.map_map]
    congr 1
    apply List.map_congr_left
    intro block _
    exact flatten_map_map (fun x => x / k) block

/-- Division does not change the dimension. -/
lemma ndim_divBy (a : NpArr) (k : ℚ) : (a.divBy k).ndim = a.ndim := by
  cases a <;> rfl

/-- Every entry of the array is bounded in magnitude by `maxAbs`. -/
lemma abs_le_maxAbs {a : NpArr} {x : ℚ} (h : x ∈ a.elems) : |x| ≤ maxAbs a :=
  mem_le_foldr_max (List.mem_map_of_mem (fun y => |y|) h)

/-- A `max`-fold based at `0` is nonnegative. -/
lemma zero_le_foldr_max (l : List ℚ) : (0 : ℚ) ≤ l.foldr max 0 := by
  induction l with
  | nil => exact le_refl 0
  | cons a t ih => exact le_trans ih (le_max_right _ _)

/-- `maxAbs` is nonnegative. -/
lemma maxAbs_nonneg (a : NpArr) : 0 ≤ maxAbs a :=
  zero_le_foldr_max _

/-- `monoPass` of a mono buffer is that buffer. -/
lemma monoPass_d1 (xs : List ℚ) : monoPass (NpArr.d1 xs) = NpArr.d1 xs := rfl

/-- Normalization keeps the dimension of the channel-averaged array. -/
lemma ndim_ensureFloat32Mono (a : NpArr) :
    (ensureFloat32Mono a).ndim = (monoPass a).ndim := by
  unfold ensureFloat32Mono
  by_cases hm : maxAbs (monoPass a) > 1
  · rw [if_pos hm, ndim_divBy]
  · rw [if_neg hm]

/-! ## Claim C7: normalization shape and amplitude -/

/-- Claim C7 as stated is false for a 3-dimensional input: one application of
`np.mean(axis=1)` in `_ensure_float32_mono` leaves a `1×1×1` array
2-dimensional, not mono. -/
theorem c7_counterexample :
    (ensureFloat32Mono (NpArr.d3 [[[0]]])).ndim = 2 ∧
      (ensureFloat32Mono (NpArr.d3 [[[0]]])).ndim ≠ 1 := by
  have h : (ensureFloat32Mono (NpArr.d3 [[[0]]])).ndim = 2 := by
    rw [ndim_ensureFloat32Mono]
    rfl
  exact ⟨h, by rw [h]; decide⟩

/-- Claim C7 (amended): for every input of dimension at most 2,
`_ensure_float32_mono` returns a 1-dimensional array whose entries all have
magnitude at most 1; and a mono input already within `[-1, 1]` is returned
unaltered (peak division only happens when the peak exceeds 1). -/
theorem c7_normalize_mono_bounded (a : NpArr) (h2 : a.ndim ≤ 2) :
    (ensureFloat32Mono a).ndim = 1 ∧
    (∀ x ∈ (ensureFloat32Mono a).elems, |x| ≤ 1) ∧
    (∀ xs : List ℚ, a = NpArr.d1 xs → (∀ x ∈ xs, |x| ≤ 1) →
      ensureFloat32Mono a = a) := by
  refine ⟨?_, ?_, ?_⟩
  · rw [ndim_ensureFloat32Mono]
    cases a with
    | d1 xs => rfl
    | d2 xs => rfl
    | d3 xs => simp [NpArr.ndim] at h2
  · intro x hx
    unfold ensureFloat32Mono at hx
    by_cases hm : maxAbs (monoPass a) > 1
    · rw [if_pos hm, elems_divBy] at hx
      rcases List.mem_map.mp hx with ⟨y, hy, rfl⟩
      have hym : |y| ≤ maxAbs (monoPass a) := abs_le_maxAbs hy
      have hmpos : (0 : ℚ) < maxAbs (monoPass a) := lt_trans one_pos hm
      rw [abs_div, abs_of_pos hmpos]
      exact (div_le_one hmpos).mpr hym
    · rw [if_neg hm] at hx
      exact le_trans (abs_le_maxAbs hx) (not_lt.mp hm)
  · rintro xs rfl hb
    unfold ensureFloat32Mono
    rw [monoPass_d1, if_neg (not_lt.mpr ?_)]
    exact foldr_max_le zero_le_one (by
      intro y hy
      rcases List.mem_map.mp hy with ⟨z, hz, rfl⟩
      exact hb z hz)

/-- Witness for C7: a two-channel stereo buffer is collapsed to mono with
entries bounded by 1, and a mono buffer inside `[-1, 1]` passes through. -/
theorem c7_witness :
    (ensureFloat32Mono (NpArr.d2 [[4, 0], [0, 0]])).ndim = 1 ∧
      (∀ x ∈ (ensureFloat32Mono (NpArr.d2 [[4, 0], [0, 0]])).elems, |x| ≤ 1) ∧
      (∀ xs : List ℚ, NpArr.d2 [[4, 0], [0, 0]] = NpArr.d1 xs →
        (∀ x ∈ xs, |x| ≤ 1) → ensureFloat32Mono (NpArr.d2 [[4, 0], [0, 0]]) =
          NpArr.d2 [[4, 0], [0, 0]]) :=
  c7_normalize_mono_bounded (NpArr.d2 [[4, 0], [0, 0]]) (by decide)

/-! ## Claim C8: resampling length and duration -/

/-- Normalization of a mono buffer keeps its sample count. -/
lemma size_ensureFloat32Mono_d1 (xs : List ℚ) :
    (ensureFloat32Mono (NpArr.d1 xs)).size = xs.length := by
  unfold ensureFloat32Mono
  rw [monoPass_d1]
  by_cases hm : maxAbs (NpArr.d1 xs) > 1
  · rw [if_pos hm]
    simp [NpArr.divBy, NpArr.size, NpArr.elems]
  · rw [if_neg hm]
    rfl

/-- Half-even rounding is within one half of its argument. -/
lemma abs_roundHalfEven_sub_le (q : ℚ) : |(roundHalfEven q : ℚ) - q| ≤ 1 / 2 := by
  have hfl : (⌊q⌋ : ℚ) ≤ q := Int.floor_le q
  have hfu : q < ⌊q⌋ + 1 := Int.lt_floor_add_one q
  unfold roundHalfEven
  split_ifs with h1 h2 h3
  · rw [abs_le]
    constructor <;> linarith
  · rw [abs_le]
    push_cast
    constructor <;> linarith
  · have hh : q - ⌊q⌋ = 1 / 2 := le_antisymm (not_lt.mp h2) (not_lt.mp h1)
    rw [abs_le]
    constructor <;> linarith
  · have hh : q - ⌊q⌋ = 1 / 2 := le_antisymm (not_lt.mp h2) (not_lt.mp h1)
    rw [abs_le]
    push_cast
    constructor <;> linarith

/-- Clamping the rounded value below by one keeps it within one of any
positive argument. -/
lemma max_one_roundHalfEven_dist {q : ℚ} (hq : 0 < q) :
    |((max 1 (roundHalfEven q) : ℤ) : ℚ) - q| ≤ 1 := by
  have h := abs_roundHalfEven_sub_le q
  rw [abs_le] at h
  rcases le_or_lt 1 (roundHalfEven q) with h1 | h1
  · rw [max_eq_right h1, abs_le]
    constructor <;> linarith [h.1, h.2]
  · have h0 : roundHalfEven q ≤ 0 := by omega
    rw [max_eq_left (by omega : roundHalfEven q ≤ 1)]
    have hcast : ((roundHalfEven q : ℤ) : ℚ) ≤ 0 := by exact_mod_cast h0
    rw [abs_le]
    push_cast
    constructor <;> linarith [h.1, h.2]

/-- The resampled list has exactly the clamped rounded target length. -/
lemma length_resample1d (xs : List ℚ) (s r : ℤ) :
    (resample1d xs s r).length = resampleTargetSize xs.length s r := by
  unfold resample1d
  rw [List.length_map]
  unfold linspace
  rw [List.length_map, List.length_range]

/-- Claim C8 as stated is false: a single-sample buffer at source rate 4
resampled to rate 1 produces 1 sample, while `round((n/s)·r) = round(1/4)`
is `0` — the source clamps the rounded length below by one. -/
theorem c8_counterexample :
    (prepareAudio (NpArr.d1 [1 / 2]) 4 1).size = 1 ∧
      roundHalfEven (((1 : ℚ) / 4) * 1) = 0 := by
  have hfloor : ⌊((1 : ℚ) / 4) * 1⌋ = 0 := by
    rw [Int.floor_eq_zero_iff]
    constructor <;> norm_num
  have hrnd : roundHalfEven (((1 : ℚ) / 4) * 1) = 0 := by
    unfold roundHalfEven
    rw [hfloor, if_pos (by norm_num)]
  refine ⟨?_, hrnd⟩
  have hsz : (ensureFloat32Mono (NpArr.d1 [1 / 2])).size = 1 :=
    size_ensureFloat32Mono_d1 [1 / 2]
  unfold prepareAudio
  rw [if_neg (by
    rintro (h | h)
    · exact absurd h (by decide)
    · rw [hsz] at h
      exact one_ne_zero h)]
  show (resample1d (ensureFloat32Mono (NpArr.d1 [1 / 2])).elems 4 1).length = 1
  rw [length_resample1d]
  have hlen : (ensureFloat32Mono (NpArr.d1 [1 / 2])).elems.length = 1 := hsz
  rw [hlen]
  unfold resampleTargetSize bufDuration
  rw [show ((1 : ℕ) : ℚ) / ((4 : ℤ) : ℚ) * ((1 : ℤ) : ℚ) = ((1 : ℚ) / 4) * 1 by
    norm_num]
  rw [hrnd]
  rfl

/-- Claim C8 (amended): for a non-empty mono buffer and distinct positive
rates, the resampled length is `max(1, round_half_even((n/s)·r))`, hence the
output duration is within one sample period of the input duration; at equal
rates or on an empty buffer the resampling stage returns the normalized
buffer unchanged. -/
theorem c8_resample_length_duration (xs : List ℚ) (s r : ℤ)
    (hs : 0 < s) (hr : 0 < r) (hsr : s ≠ r) (hx : xs ≠ []) :
    (prepareAudio (NpArr.d1 xs) s r).size = resampleTargetSize xs.length s r ∧
    |((prepareAudio (NpArr.d1 xs) s r).size : ℚ) / (r : ℚ) -
        (xs.length : ℚ) / (s : ℚ)| ≤ 1 / (r : ℚ) ∧
    prepareAudio (NpArr.d1 xs) s s = ensureFloat32Mono (NpArr.d1 xs) ∧
    prepareAudio (NpArr.d1 []) s r = ensureFloat32Mono (NpArr.d1 []) := by
  have hlen0 : xs.length ≠ 0 := fun h => hx (List.length_eq_zero.mp h)
  have hsz : (ensureFloat32Mono (NpArr.d1 xs)).size = xs.length :=
    size_ensureFloat32Mono_d1 xs
  have hmain : (prepareAudio (NpArr.d1 xs) s r).size =
      resampleTargetSize xs.length s r := by
    unfold prepareAudio
    rw [if_neg (by
      rintro (h | h)
      · exact hsr h
      · rw [hsz] at h
        exact hlen0 h)]
    show (resample1d (ensureFloat32Mono (NpArr.d1 xs)).elems s r).length =
      resampleTargetSize xs.length s r
    rw [length_resample1d]
    have : (ensureFloat32Mono (NpArr.d1 xs)).elems.length = xs.length := hsz
    rw [this]
  refine ⟨hmain, ?_, ?_, ?_⟩
  · rw [hmain]
    have hrq : (0 : ℚ) < (r : ℚ) := by exact_mod_cast hr
    have hsq : (0 : ℚ) < (s : ℚ) := by exact_mod_cast hs
    have hnq : (0 : ℚ) < (xs.length : ℚ) := by
      exact_mod_cast Nat.pos_of_ne_zero hlen0
    set q : ℚ := bufDuration xs.length s * (r : ℚ) with hqdef
    have hqpos : 0 < q := by
      rw [hqdef]
      unfold bufDuration
      exact mul_pos (div_pos hnq hsq) hrq
    have hdist := max_one_roundHalfEven_dist hqpos
    have htnn : (0 : ℤ) ≤ max 1 (roundHalfEven q) := by
      have := le_max_left (1 : ℤ) (roundHalfEven q)
      omega
    have hcast : ((resampleTargetSize xs.length s r : ℕ) : ℚ) =
        ((max 1 (roundHalfEven q) : ℤ) : ℚ) := by
      unfold resampleTargetSize
      rw [← hqdef]
      exact_mod_cast congrArg (fun z : ℤ => (z : ℚ))
        (Int.toNat_of_nonneg htnn)
    rw [hcast]
    have hq_over_r : (xs.length : ℚ) / (s : ℚ) = q / (r : ℚ) := by
      rw [hqdef]
      unfold bufDuration
      field_simp
      ring
    rw [hq_over_r, div_sub_div_same, abs_div, abs_of_pos hrq]
    rw [div_le_div_iff_of_pos_right hrq]
    exact hdist
  · unfold prepareAudio
    rw [if_pos (Or.inl rfl)]
  · unfold prepareAudio
    have h0 : (ensureFloat32Mono (NpArr.d1 ([] : List ℚ))).size = 0 := by
      rw [size_ensureFloat32Mono_d1]
      rfl
    rw [if_pos (Or.inr h0)]

/-- Witness for C8: two samples at rate 2 resampled to rate 4 give four
samples, within one sample period of the one-second input. -/
theorem c8_witness :
    (prepareAudio (NpArr.d1 [1 / 2, 1 / 2]) 2 4).size =
        resampleTargetSize ([1 / 2, 1 / 2] : List ℚ).length 2 4 ∧
      |((prepareAudio (NpArr.d1 [1 / 2, 1 / 2]) 2 4).size : ℚ) / ((4 : ℤ) : ℚ) -
          (([1 / 2, 1 / 2] : List ℚ).length : ℚ) / ((2 : ℤ) : ℚ)| ≤
        1 / ((4 : ℤ) : ℚ) ∧
      prepareAudio (NpArr.d1 [1 / 2, 1 / 2]) 2 2 =
        ensureFloat32Mono (NpArr.d1 [1 / 2, 1 / 2]) ∧
      prepareAudio (NpArr.d1 []) 2 4 = ensureFloat32Mono (NpArr.d1 []) :=
  c8_resample_length_duration [1 / 2, 1 / 2] 2 4 (by decide) (by decide)
    (by decide) (List.cons_ne_nil _ _)

/-! ## Speech synthesis (`FullochService.synthesize_speech`)

The TTS backend functions (`set_voice`, `synthesize`) are collaborators;
raising is modelled by `Except.error`.  The voice-conditioning prompt type is
opaque, so the model is polymorphic in it.  The embedding starts after
`_ensure_tts()` has installed the backend (a load failure would surface
before any of the logic below runs). -/

/-- `OPENAI_STYLE_VOICES`. -/
def openaiStyleVoices : List String :=
  ["alloy", "echo", "fable", "onyx", "nova", "shimmer"]

/-- Backend collaborators and configuration consulted by
`synthesize_speech`. -/
structure TtsEnv (π : Type) where
  /-- `self.use_tiny_tts` -/
  useTinyTts : Bool
  /-- `self.voice_clone` -/
  voiceClone : String
  /-- `self._remove_emoji` -/
  removeEmoji : Option (String → Bool → String)
  /-- `self._set_voice`; `Except.error` models a raised exception -/
  setVoice : String → Except Unit π
  /-- `self._tts_synthesize(text, prompt, voice, speed)` -/
  synth : String → Option π → String → ℚ → Except Unit (NpArr × ℤ)

/-- The mutable voice state of the service. -/
structure TtsState (π : Type) where
  /-- `self._active_voice` -/
  activeVoice : String
  /-- `self._voice_prompt` -/
  voicePrompt : Option π

/-- `self._active_voice or self.voice_clone`: the last known-good voice. -/
def knownGoodVoice {π : Type} (env : TtsEnv π) (st : TtsState π) : String :=
  if st.activeVoice ≠ "" then st.activeVoice else env.voiceClone

/-- Voice resolution at the top of `synthesize_speech`: empty request falls
back to the active voice, and OpenAI-style generic names map to a concrete
backend voice. -/
def resolveRequestedVoice {π : Type} (env : TtsEnv π) (st : TtsState π)
    (voice : Option String) : String :=
  let requested := pyStrip (voice.getD "")
  let requested := if requested = "" then knownGoodVoice env st else requested
  if openaiStyleVoices.contains (pyLower requested) then
    if env.useTinyTts then "af_bella" else knownGoodVoice env st
  else requested

/-- The voice-switch step inside the inference lock: on the full backend, a
changed voice is switched; a switch failure is logged and the previous state
kept. -/
def afterVoiceSwitch {π : Type} (env : TtsEnv π) (st : TtsState π)
    (requested : String) : TtsState π :=
  if env.useTinyTts = false ∧ requested ≠ "" ∧ requested ≠ st.activeVoice then
    match env.setVoice requested with
    | Except.ok prompt => ⟨requested, some prompt⟩
    | Except.error _ => st
  else st

/-- `FullochService.synthesize_speech(text, voice, speed)` after the backend
is loaded.  Returns the request outcome, the voice state after the request,
and the list of voices passed to `self._tts_synthesize`, in call order. -/
def synthesizeSpeech {π : Type} (env : TtsEnv π) (st : TtsState π)
    (text : String) (voice : Option String) (speed : ℚ) :
    Except Unit (NpArr × ℤ) × TtsState π × List String :=
  let cleaned := cleanText env.removeEmoji (some text) false
  if cleaned = "" then (Except.ok (NpArr.d1 [0], 24000), st, [])
  else
    let requested := resolveRequestedVoice env st voice
    let st1 := afterVoiceSwitch env st requested
    match env.synth cleaned st1.voicePrompt requested speed with
    | Except.ok (wav, sr) => (Except.ok (ensureFloat32Mono wav, sr), st1, [requested])
    | Except.error e =>
      if requested = knownGoodVoice env st1 then (Except.error e, st1, [requested])
      else
        match env.synth cleaned st1.voicePrompt (knownGoodVoice env st1) speed with
        | Except.ok (wav, sr) =>
          (Except.ok (ensureFloat32Mono wav, sr), st1, [requested, knownGoodVoice env st1])
        | Except.error e2 => (Except.error e2, st1, [requested, knownGoodVoice env st1])

/-! ## Claim C4: one retry against the known-good voice -/

/-- Claim C4: when synthesis raises for the attempted voice, the request
retries exactly once against the known-good voice if — and only if — the
attempted voice differs from it; otherwise the failure propagates with no
retry.  The retry outcome (success or error) becomes the request outcome. -/
theorem c4_voice_fallback_retry {π : Type} (env : TtsEnv π) (st : TtsState π)
    (text : String) (voice : Option String) (speed : ℚ) (e : Unit)
    (hclean : cleanText env.removeEmoji (some text) false ≠ "")
    (hfail : env.synth (cleanText env.removeEmoji (some text) false)
        (afterVoiceSwitch env st (resolveRequestedVoice env st voice)).voicePrompt
        (resolveRequestedVoice env st voice) speed = Except.error e) :
    (resolveRequestedVoice env st voice ≠
        knownGoodVoice env (afterVoiceSwitch env st (resolveRequestedVoice env st voice)) →
      (synthesizeSpeech env st text voice speed).2.2 =
        [resolveRequestedVoice env st voice,
          knownGoodVoice env (afterVoiceSwitch env st (resolveRequestedVoice env st voice))] ∧
      (synthesizeSpeech env st text voice speed).1 =
        (match env.synth (cleanText env.removeEmoji (some text) false)
            (afterVoiceSwitch env st (resolveRequestedVoice env st voice)).voicePrompt
            (knownGoodVoice env (afterVoiceSwitch env st (resolveRequestedVoice env st voice)))
            speed with
          | Except.ok (wav, sr) => Except.ok (ensureFloat32Mono wav, sr)
          | Except.error e2 => Except.error e2)) ∧
    (resolveRequestedVoice env st voice =
        knownGoodVoice env (afterVoiceSwitch env st (resolveRequestedVoice env st voice)) →
      (synthesizeSpeech env st text voice speed).2.2 =
        [resolveRequestedVoice env st voice] ∧
      (synthesizeSpeech env st text voice speed).1 = Except.error e) := by
  constructor
  · intro hne
    unfold synthesizeSpeech
    rw [if_neg hclean]
    simp only [hfail, if_neg hne]
    cases hsec : env.synth (cleanText env.removeEmoji (some text) false)
        (afterVoiceSwitch env st (resolveRequestedVoice env st voice)).voicePrompt
        (knownGoodVoice env (afterVoiceSwitch env st (resolveRequestedVoice env st voice)))
        speed with
    | ok pair => cases pair with | mk wav sr => exact ⟨rfl, rfl⟩
    | error e2 => exact ⟨rfl, rfl⟩
  · intro heq
    unfold synthesizeSpeech
    rw [if_neg hclean]
    simp only [hfail, if_pos heq]
    exact ⟨trivial, trivial⟩

/-- Concrete TTS environment whose backend only synthesizes the `cori` voice
and whose voice switch always fails. -/
def ttsEnvRetry : TtsEnv Unit where
  useTinyTts := false
  voiceClone := "cori"
  removeEmoji := none
  setVoice := fun _ => Except.error ()
  synth := fun _ _ v _ =>
    if v = "cori" then Except.ok (NpArr.d1 [0], 24000) else Except.error ()

/-- Concrete TTS environment whose backend always fails to synthesize. -/
def ttsEnvFatal : TtsEnv Unit where
  useTinyTts := false
  voiceClone := "cori"
  removeEmoji := none
  setVoice := fun _ => Except.error ()
  synth := fun _ _ _ _ => Except.error ()

/-- Witness for C4: a request for voice `bella` fails (after a failed voice
switch), retries once with the known-good voice `cori` and succeeds; a
request for the known-good voice itself fails with no retry. -/
theorem c4_witness :
    ((synthesizeSpeech ttsEnvRetry ⟨"cori", none⟩ "hello" (some "bella") 1).2.2 =
        ["bella", "cori"] ∧
      (synthesizeSpeech ttsEnvRetry ⟨"cori", none⟩ "hello" (some "bella") 1).1 =
        Except.ok (ensureFloat32Mono (NpArr.d1 [0]), 24000)) ∧
    ((synthesizeSpeech ttsEnvFatal ⟨"cori", none⟩ "hello" (some "cori") 1).2.2 =
        ["cori"] ∧
      (synthesizeSpeech ttsEnvFatal ⟨"cori", none⟩ "hello" (some "cori") 1).1 =
        Except.error ()) := by
  constructor
  · exact (c4_voice_fallback_retry ttsEnvRetry ⟨"cori", none⟩ "hello"
      (some "bella") 1 () (by decide) rfl).1 (by decide)
  · exact (c4_voice_fallback_retry ttsEnvFatal ⟨"cori", none⟩ "hello"
      (some "cori") 1 () (by decide) rfl).2 (by decide)

/-! ## Claim C10: empty sanitized text short-circuits synthesis -/

/-- Claim C10: when the input text sanitizes to the empty string,
`synthesize_speech` returns a one-sample all-zero waveform at 24000 Hz,
leaves the voice state untouched, and never calls the synthesis backend
(so no error can arise from it). -/
theorem c10_empty_text_short_circuit {π : Type} (env : TtsEnv π)
    (st : TtsState π) (text : String) (voice : Option String) (speed : ℚ)
    (hclean : cleanText env.removeEmoji (some text) false = "") :
    synthesizeSpeech env st text voice speed =
      (Except.ok (NpArr.d1 [0], 24000), st, []) := by
  unfold synthesizeSpeech
  rw [if_pos hclean]

/-- Witness for C10: a text of quotes, asterisks and spaces sanitizes to
empty, and the request resolves to the silent one-sample buffer even though
the backend would fail every synthesis call. -/
theorem c10_witness :
    synthesizeSpeech
        ({ useTinyTts := false, voiceClone := "cori", removeEmoji := none,
           setVoice := fun _ => Except.error (),
           synth := fun _ _ _ _ => Except.error () } : TtsEnv Unit)
        ⟨"cori", none⟩ "\"**  " none 1 =
      (Except.ok (NpArr.d1 [0], 24000), (⟨"cori", none⟩ : TtsState Unit), []) :=
  c10_empty_text_short_circuit _ _ _ _ _ (by decide)

/-! ## Lazy backend loading (`_ensure_asr` / `_ensure_slm`) -/

/-- The SLM slot of the service: grammar, model handle and prompts, all
`None` until the first successful load. -/
structure SlmSlot (γ μ : Type) where
  /-- `self._grammar` -/
  grammar : Option γ
  /-- `self._slm_model` -/
  slmModel : Option μ
  /-- `self._intent_prompt` -/
  intentPrompt : Option String
  /-- `self._chat_prompt` -/
  chatPrompt : Option String

/-- `FullochService._ensure_slm()` as a sequential state transformer,
parameterized by the outcome `load_slm()` would have (`Except.error` models a
raised exception, in which case the tuple assignment never happens) and the
prompt getters.  Returns the new slot, the call outcome, and whether
`load_slm` was invoked.  The inner re-check under the load lock tests the
same condition again, as in the source. -/
def ensureSlm {γ μ ε : Type} (load : Except ε (γ × μ))
    (intentPromptText chatPromptText : String) (st : SlmSlot γ μ) :
    SlmSlot γ μ × Except ε Unit × Bool :=
  if st.slmModel.isSome then (st, Except.ok (), false)
  else
    if st.slmModel.isSome then (st, Except.ok (), false)
    else
      match load with
      | Except.error e => (st, Except.error e, true)
      | Except.ok (g, m) =>
        (⟨some g, some m, some intentPromptText, some chatPromptText⟩,
          Except.ok (), true)

/-- `FullochService._ensure_asr()` over the `self._asr_pipe` field. -/
def ensureAsr {ρ ε : Type} (load : Except ε ρ) (pipe : Option ρ) :
    Option ρ × Except ε Unit × Bool :=
  if pipe.isSome then (pipe, Except.ok (), false)
  else
    if pipe.isSome then (pipe, Except.ok (), false)
    else
      match load with
      | Except.error e => (pipe, Except.error e, true)
      | Except.ok p => (some p, Except.ok (), true)

/-! ## Claim C6: failed loads are not cached -/

/-- Claim C6: on an unloaded slot, a failing load leaves the handle unset and
surfaces the error to the caller, and the next call to the same `_ensure_*`
method attempts the load again (and succeeds when the load now succeeds) —
for both the SLM slot and the ASR slot. -/
theorem c6_failed_load_not_cached {γ μ ρ ε : Type} (e : ε) (g : γ) (m : μ)
    (p : ρ) (ip cp : String) (st : SlmSlot γ μ) (pipe : Option ρ)
    (hslm : st.slmModel = none) (hasr : pipe = none) :
    (ensureSlm (Except.error e) ip cp st = (st, Except.error e, true) ∧
      (ensureSlm (Except.ok (g, m) : Except ε (γ × μ)) ip cp
          (ensureSlm (Except.error e) ip cp st).1).2.2 = true ∧
      (ensureSlm (Except.ok (g, m) : Except ε (γ × μ)) ip cp
          (ensureSlm (Except.error e) ip cp st).1).1.slmModel = some m) ∧
    (ensureAsr (Except.error e) pipe = (pipe, Except.error e, true) ∧
      (ensureAsr (Except.ok p : Except ε ρ) (ensureAsr (Except.error e) pipe).1).2.2 = true ∧
      (ensureAsr (Except.ok p : Except ε ρ) (ensureAsr (Except.error e) pipe).1).1 = some p) := by
  have h1 : ensureSlm (Except.error e) ip cp st = (st, Except.error e, true) := by
    unfold ensureSlm
    rw [hslm]
    rfl
  have h2 : ensureAsr (ε := ε) (Except.error e) pipe =
      (pipe, Except.error e, true) := by
    unfold ensureAsr
    rw [hasr]
    rfl
  have h3 : ensureSlm (Except.ok (g, m) : Except ε (γ × μ)) ip cp st =
      (⟨some g, some m, some ip, some cp⟩, Except.ok (), true) := by
    unfold ensureSlm
    rw [hslm]
    rfl
  have h4 : ensureAsr (Except.ok p : Except ε ρ) pipe =
      (some p, Except.ok (), true) := by
    unfold ensureAsr
    rw [hasr]
    rfl
  refine ⟨⟨h1, ?_, ?_⟩, h2, ?_, ?_⟩
  · rw [h1]
    show (ensureSlm (Except.ok (g, m) : Except ε (γ × μ)) ip cp st).2.2 = true
    rw [h3]
  · rw [h1]
    show (ensureSlm (Except.ok (g, m) : Except ε (γ × μ)) ip cp
      st).1.slmModel = some m
    rw [h3]
  · rw [h2]
    show (ensureAsr (Except.ok p : Except ε ρ) pipe).2.2 = true
    rw [h4]
  · rw [h2]
    show (ensureAsr (Except.ok p : Except ε ρ) pipe).1 = some p
    rw [h4]

/-- Witness for C6: a concrete empty slot, a failed load, then a successful
retry. -/
theorem c6_witness :
    (ensureSlm (Except.error ()) "ip" "cp"
          (⟨none, none, none, none⟩ : SlmSlot Unit Unit) =
        ((⟨none, none, none, none⟩ : SlmSlot Unit Unit), Except.error (), true) ∧
      (ensureSlm (Except.ok ((), ()) : Except Unit (Unit × Unit)) "ip" "cp"
          (ensureSlm (Except.error ()) "ip" "cp"
            (⟨none, none, none, none⟩ : SlmSlot Unit Unit)).1).2.2 = true ∧
      (ensureSlm (Except.ok ((), ()) : Except Unit (Unit × Unit)) "ip" "cp"
          (ensureSlm (Except.error ()) "ip" "cp"
            (⟨none, none, none, none⟩ : SlmSlot Unit Unit)).1).1.slmModel =
        some ()) ∧
    (ensureAsr (Except.error ()) (none : Option Unit) =
        ((none : Option Unit), Except.error (), true) ∧
      (ensureAsr (Except.ok () : Except Unit Unit)
          (ensureAsr (Except.error ()) (none : Option Unit)).1).2.2 = true ∧
      (ensureAsr (Except.ok () : Except Unit Unit)
          (ensureAsr (Except.error ()) (none : Option Unit)).1).1 = some ()) :=
  c6_failed_load_not_cached () () () () "ip" "cp"
    (⟨none, none, none, none⟩ : SlmSlot Unit Unit) (none : Option Unit) rfl rfl

/-! ## Claim C5: concurrent first use loads exactly once

`n` request threads concurrently execute `_ensure_slm` (the `_ensure_asr` and
`_ensure_tts` guards are the same program over their own slot and lock).
Each thread runs: unlocked fast check → acquire the load lock → re-check →
load → publish and release.  The interleaving semantics is a step relation on
a global state; loads succeed (claim C5 is about the number of load calls on
first use, not about failures, which claim C6 covers). -/

/-- Program counter of one thread in `_ensure_slm`. -/
inductive LoadPc where
  /-- before the unlocked fast check -/
  | start
  /-- holding the load lock, before the re-check -/
  | locked
  /-- holding the load lock, `load_slm()` call in flight -/
  | loading
  /-- returned -/
  | done
deriving DecidableEq

/-- Global state of the slot and the `n` threads: per-thread pcs, whether
`self._slm_model` is set, who holds `self._slm_load_lock`, and how many
`load_slm` calls have started. -/
structure LoadSys (n : Nat) where
  /-- per-thread program counters -/
  pc : Fin n → LoadPc
  /-- `self._slm_model is not None` -/
  loaded : Bool
  /-- holder of the load lock -/
  lock : Option (Fin n)
  /-- number of `load_slm()` invocations started -/
  loads : Nat

/-- All threads about to make first use of an unloaded slot. -/
def initLoadSys (n : Nat) : LoadSys n :=
  ⟨fun _ => LoadPc.start, false, none, 0⟩

/-- One interleaving step of some thread. -/
inductive LoadStep (n : Nat) : LoadSys n → LoadSys n → Prop where
  /-- the unlocked fast check sees the model set and returns -/
  | fastHit (s : LoadSys n) (i : Fin n) (hpc : s.pc i = LoadPc.start)
      (hl : s.loaded = true) :
      LoadStep n s { s with pc := Function.update s.pc i LoadPc.done }
  /-- the fast check sees no model and the thread acquires the free lock -/
  | acquire (s : LoadSys n) (i : Fin n) (hpc : s.pc i = LoadPc.start)
      (hl : s.loaded = false) (hlock : s.lock = none) :
      LoadStep n s
        { s with pc := Function.update s.pc i LoadPc.locked, lock := some i }
  /-- the re-check under the lock sees the model set: release and return -/
  | recheckHit (s : LoadSys n) (i : Fin n) (hpc : s.pc i = LoadPc.locked)
      (hl : s.loaded = true) :
      LoadStep n s
        { s with pc := Function.update s.pc i LoadPc.done, lock := none }
  /-- the re-check sees no model: the `load_slm()` call starts -/
  | beginLoad (s : LoadSys n) (i : Fin n) (hpc : s.pc i = LoadPc.locked)
      (hl : s.loaded = false) :
      LoadStep n s
        { s with pc := Function.update s.pc i LoadPc.loading,
                 loads := s.loads + 1 }
  /-- the load returns: publish the model, release the lock, return -/
  | endLoad (s : LoadSys n) (i : Fin n) (hpc : s.pc i = LoadPc.loading) :
      LoadStep n s
        { s with pc := Function.update s.pc i LoadPc.done, loaded := true,
                 lock := none }

/-- States reachable from the all-start configuration. -/
def LoadReachable (n : Nat) (s : LoadSys n) : Prop :=
  Relation.ReflTransGen (LoadStep n) (initLoadSys n) s

/-- The inductive invariant of the double-checked guard. -/
structure LoadInv {n : Nat} (s : LoadSys n) : Prop where
  /-- a thread between acquire and release holds the lock -/
  lockOwner : ∀ i, s.pc i = LoadPc.locked ∨ s.pc i = LoadPc.loading →
    s.lock = some i
  /-- a returned thread has seen the model set -/
  doneLoaded : ∀ i, s.pc i = LoadPc.done → s.loaded = true
  /-- load-count accounting: no load yet, the one load finished, or the one
  load is in flight -/
  loadsEq :
    (s.loads = 0 ∧ s.loaded = false ∧ ∀ i, s.pc i ≠ LoadPc.loading) ∨
    (s.loads = 1 ∧ s.loaded = true ∧ ∀ i, s.pc i ≠ LoadPc.loading) ∨
    (s.loads = 1 ∧ s.loaded = false ∧ ∃ i, s.pc i = LoadPc.loading)

/-- The invariant holds initially. -/
lemma loadInv_init (n : Nat) : LoadInv (initLoadSys n) := by
  refine ⟨?_, ?_, Or.inl ⟨rfl, rfl, ?_⟩⟩ <;> intro i h <;> simp_all [initLoadSys]

/-- The invariant is preserved by every step. -/
lemma loadInv_step {n : Nat} {s t : LoadSys n} (hstep : LoadStep n s t)
    (hinv : LoadInv s) : LoadInv t := by
  cases hstep with
  | fastHit i hpc hl =>
    refine ⟨?_, ?_, ?_⟩
    · intro j hj
      by_cases hij : j = i
      · subst hij
        simp only [Function.update_same] at hj
        rcases hj with h | h <;> cases h
      · simp only [Function.update_noteq hij] at hj
        exact hinv.lockOwner j hj
    · intro j _
      exact hl
    · rcases hinv.loadsEq with ⟨h0, hl0, _⟩ | ⟨h1, hl1, hno⟩ | ⟨h1, hl1, _⟩
      · rw [hl] at hl0
        cases hl0
      · refine Or.inr (Or.inl ⟨h1, hl1, ?_⟩)
        intro j
        by_cases hij : j = i
        · subst hij
          simp only [Function.update_same]
          intro h
          cases h
        · simp only [Function.update_noteq hij]
          exact hno j
      · rw [hl] at hl1
        cases hl1
  | acquire i hpc hl hlock =>
    refine ⟨?_, ?_, ?_⟩
    · intro j hj
      by_cases hij : j = i
      · subst hij
        rfl
      · simp only [Function.update_noteq hij] at hj
        have := hinv.lockOwner j hj
        rw [hlock] at this
        cases this
    · intro j hj
      by_cases hij : j = i
      · subst hij
        simp only [Function.update_same] at hj
        cases hj
      · simp only [Function.update_noteq hij] at hj
        exact hinv.doneLoaded j hj
    · rcases hinv.loadsEq with ⟨h0, hl0, hno⟩ | ⟨h1, hl1, hno⟩ | ⟨h1, hl1, hex⟩
      · refine Or.inl ⟨h0, hl0, ?_⟩
        intro j
        by_cases hij : j = i
        · subst hij
          simp only [Function.update_same]
          intro h
          cases h
        · simp only [Function.update_noteq hij]
          exact hno j
      · rw [hl] at hl1
        cases hl1
      · rcases hex with ⟨j, hj⟩
        have := hinv.lockOwner j (Or.inr hj)
        rw [hlock] at this
        cases this
  | recheckHit i hpc hl =>
    refine ⟨?_, ?_, ?_⟩
    · intro j hj
      by_cases hij : j = i
      · subst hij
        simp only [Function.update_same] at hj
        rcases hj with h | h <;> cases h
      · simp only [Function.update_noteq hij] at hj
        have hji := hinv.lockOwner j hj
        have hii := hinv.lockOwner i (Or.inl hpc)
        rw [hii] at hji
        cases hji
        exact absurd rfl hij
    · intro j _
      exact hl
    · rcases hinv.loadsEq with ⟨h0, hl0, _⟩ | ⟨h1, hl1, hno⟩ | ⟨h1, hl1, _⟩
      · rw [hl] at hl0
        cases hl0
      · refine Or.inr (Or.inl ⟨h1, hl1, ?_⟩)
        intro j
        by_cases hij : j = i
        · subst hij
          simp only [Function.update_same]
          intro h
          cases h
        · simp only [Function.update_noteq hij]
          exact hno j
      · rw [hl] at hl1
        cases hl1
  | beginLoad i hpc hl =>
    refine ⟨?_, ?_, ?_⟩
    · intro j hj
      by_cases hij : j = i
      · subst hij
        exact hinv.lockOwner j (Or.inl hpc)
      · simp only [Function.update_noteq hij] at hj
        exact hinv.lockOwner j hj
    · intro j hj
      by_cases hij : j = i
      · subst hij
        simp only [Function.update_same] at hj
        cases hj
      · simp only [Function.update_noteq hij] at hj
        exact hinv.doneLoaded j hj
    · rcases hinv.loadsEq with ⟨h0, hl0, hno⟩ | ⟨h1, hl1, hno⟩ | ⟨h1, hl1, hex⟩
      · refine Or.inr (Or.inr ⟨by rw [h0], hl0, i, ?_⟩)
        simp only [Function.update_same]
      · rw [hl] at hl1
        cases hl1
      · rcases hex with ⟨j, hj⟩
        have hji := hinv.lockOwner j (Or.inr hj)
        have hii := hinv.lockOwner i (Or.inl hpc)
        rw [hii] at hji
        cases hji
        rw [hpc] at hj
        cases hj
  | endLoad i hpc =>
    refine ⟨?_, ?_, ?_⟩
    · intro j hj
      by_cases hij : j = i
      · subst hij
        simp only [Function.update_same] at hj
        rcases hj with h | h <;> cases h
      · simp only [Function.update_noteq hij] at hj
        have hji := hinv.lockOwner j hj
        have hii := hinv.lockOwner i (Or.inr hpc)
        rw [hii] at hji
        cases hji
        exact absurd rfl hij
    · intro j _
      rfl
    · rcases hinv.loadsEq with ⟨h0, hl0, hno⟩ | ⟨h1, hl1, hno⟩ | ⟨h1, hl1, hex⟩
      · exact absurd hpc (hno i)
      · exact absurd hpc (hno i)
      · refine Or.inr (Or.inl ⟨h1, rfl, ?_⟩)
        intro j
        by_cases hij : j = i
        · subst hij
          simp only [Function.update_same]
          intro h
          cases h
        · simp only [Function.update_noteq hij]
          intro hj
          have hji := hinv.lockOwner j (Or.inr hj)
          have hii := hinv.lockOwner i (Or.inr hpc)
          rw [hii] at hji
          cases hji
          exact absurd rfl hij

/-- Every reachable state satisfies the invariant. -/
lemma loadInv_reachable {n : Nat} {s : LoadSys n} (h : LoadReachable n s) :
    LoadInv s := by
  induction h with
  | refl => exact loadInv_init n
  | tail _ hstep ih => exact loadInv_step hstep ih

/-- Claim C5: in every reachable interleaving of `N` concurrent first-use
calls through the double-checked guard, at most one load call is in flight
at any time (any two threads with a load in flight coincide), and once every
thread has returned (with at least one thread present), exactly one load
call has happened. -/
theorem c5_concurrent_single_load {n : Nat} (s : LoadSys n)
    (hreach : LoadReachable n s) :
    (∀ i j : Fin n, s.pc i = LoadPc.loading → s.pc j = LoadPc.loading →
      i = j) ∧
    ((∀ i, s.pc i = LoadPc.done) → 0 < n → s.loads = 1) := by
  have hinv := loadInv_reachable hreach
  constructor
  · intro i j hi hj
    have h1 := hinv.lockOwner i (Or.inr hi)
    have h2 := hinv.lockOwner j (Or.inr hj)
    rw [h1] at h2
    cases h2
    rfl
  · intro hall hn
    have hloaded : s.loaded = true := hinv.doneLoaded ⟨0, hn⟩ (hall ⟨0, hn⟩)
    rcases hinv.loadsEq with ⟨_, hl0, _⟩ | ⟨h1, _, _⟩ | ⟨_, hl1, _⟩
    · rw [hloaded] at hl0
      cases hl0
    · exact h1
    · rw [hloaded] at hl1
      cases hl1

/-- Demo trace, state 0: two threads about to use the unloaded slot. -/
def loadDemo0 : LoadSys 2 := initLoadSys 2

/-- Demo trace, state 1: thread 0 acquired the load lock. -/
def loadDemo1 : LoadSys 2 :=
  { loadDemo0 with pc := Function.update loadDemo0.pc 0 LoadPc.locked,
                   lock := some 0 }

/-- Demo trace, state 2: thread 0 started the load. -/
def loadDemo2 : LoadSys 2 :=
  { loadDemo1 with pc := Function.update loadDemo1.pc 0 LoadPc.loading,
                   loads := loadDemo1.loads + 1 }

/-- Demo trace, state 3: the load finished; thread 0 published and
released. -/
def loadDemo3 : LoadSys 2 :=
  { loadDemo2 with pc := Function.update loadDemo2.pc 0 LoadPc.done,
                   loaded := true, lock := none }

/-- Demo trace, state 4: thread 1 hits the fast check and returns. -/
def loadDemo4 : LoadSys 2 :=
  { loadDemo3 with pc := Function.update loadDemo3.pc 1 LoadPc.done }

/-- The demo end state is reachable. -/
lemma loadDemo_reachable : LoadReachable 2 loadDemo4 := by
  have h0 : Relation.ReflTransGen (LoadStep 2) (initLoadSys 2) loadDemo0 :=
    Relation.ReflTransGen.refl
  have h1 : Relation.ReflTransGen (LoadStep 2) (initLoadSys 2) loadDemo1 :=
    h0.tail (LoadStep.acquire loadDemo0 0 rfl rfl rfl)
  have h2 : Relation.ReflTransGen (LoadStep 2) (initLoadSys 2) loadDemo2 :=
    h1.tail (LoadStep.beginLoad loadDemo1 0 rfl rfl)
  have h3 : Relation.ReflTransGen (LoadStep 2) (initLoadSys 2) loadDemo3 :=
    h2.tail (LoadStep.endLoad loadDemo2 0 rfl)
  exact h3.tail (LoadStep.fastHit loadDemo3 1 rfl rfl)

/-- Witness for C5: in the explicit two-thread interleaving where thread 0
loads and thread 1 races it, both threads return and exactly one load call
happened, and no two distinct threads ever had a load in flight. -/
theorem c5_witness :
    loadDemo4.loads = 1 ∧
      (∀ i j : Fin 2, loadDemo4.pc i = LoadPc.loading →
        loadDemo4.pc j = LoadPc.loading → i = j) := by
  have h := c5_concurrent_single_load loadDemo4 loadDemo_reachable
  exact ⟨h.2 (by decide) (by decide), h.1⟩

end Fulloch
